import Mathlib

/-!
Verification of the KaggleApp moderation-scoring service
(`KaggleApp/Scripts/algo.py`) against its natural-language specification.

The script is a persistent stdin/stdout loop: each input line is stripped,
decoded as JSON (`{"comments": [string, ...]}`), each comment is scored
against every loaded per-rule logistic-regression model, and one JSON
response line is emitted per request.

Shallow embedding choices, recorded here once:
* `json.loads`, the TF-IDF vectorizers and the pickled per-rule models are
  external to this repository.  A stdin line is therefore modelled by its
  parse outcome (`LineV`), and `model.predict_proba(X_final)[:,1][0]` for a
  given comment body and rule name is an opaque oracle
  `prob : String → String → ℚ` (the assembled feature row is a pure
  function of the body and the rule name, so the probability is too).
* The pandas feature pipeline (`pd.DataFrame`, `add_numeric_features`,
  `tfidf.transform`) succeeds on a list of strings; on any other truthy
  decoded `comments` value it is modelled as raising a library exception
  (`asStringList`).
* The Python local-variable semantics for `comments` in `main` are modelled
  explicitly (`LoopState`): the variable stays bound across loop
  iterations, and reading it while unbound raises `UnboundLocalError`.
-/

namespace KaggleApp

/-- JSON values as returned by `json.loads` / consumed by `json.dumps`.
An `obj` is a Python dict: its key list is association-ordered and, coming
out of `json.loads`, duplicate-free. -/
inductive Json where
  | null
  | bool (b : Bool)
  | num (q : ℚ)
  | str (s : String)
  | arr (elems : List Json)
  | obj (fields : List (String × Json))

/-- One stdin line, after the host runtime has applied `line.strip()` and
attempted `json.loads`: `blank` is a line that is empty after stripping,
`invalid msg` a line on which `json.loads` raises with message `msg`,
`valid j` a line that decodes to the JSON value `j`. -/
inductive LineV where
  | blank
  | invalid (msg : String)
  | valid (j : Json)

/-- Python truthiness of a decoded JSON value, as tested by
`if not comments:` (algo.py line 71). -/
def pyTruthy : Json → Bool
  | .null => false
  | .bool b => b
  | .num q => q != 0
  | .str s => s != ""
  | .arr l => !l.isEmpty
  | .obj l => !l.isEmpty

/-- Python dict lookup on the decoded key/value pairs (`json.loads`
produces dicts with distinct keys, so first match is the match). -/
def fieldLookup (k : String) : List (String × Json) → Option Json
  | [] => none
  | (k2, v) :: rest => if k = k2 then some v else fieldLookup k rest

/-- `data.get("comments", [])` (algo.py line 70): on a dict, lookup with
default `[]`; on any other decoded value, `.get` raises `AttributeError`. -/
def dictGet (j : Json) (key : String) (dflt : Json) : Except String Json :=
  match j with
  | .obj fields =>
      match fieldLookup key fields with
      | some v => .ok v
      | none => .ok dflt
  | _ => .error "AttributeError"

/-- Number of items Python iteration yields on a decoded value (`for _ in
comments` in the except block): lists yield their elements, strings their
characters, dicts their keys; other values are not iterable. -/
def pyIterLen : Json → Option Nat
  | .arr l => some l.length
  | .str s => some s.length
  | .obj l => some l.length
  | _ => none

/-! ## Numeric features (`add_numeric_features`, algo.py lines 46–55) -/

/-- Python `str.split()` with no argument, as used by
`body.str.split().str.len()`: split on whitespace runs, dropping empty
tokens. -/
def pyWordCount (s : String) : Nat :=
  ((s.split Char.isWhitespace).filter (fun t => t != "")).length

/-- Substring scan: does `pat` occur contiguously inside `s`? -/
def containsSub (pat : List Char) : List Char → Bool
  | [] => pat.isEmpty
  | c :: rest => pat.isPrefixOf (c :: rest) || containsSub pat rest

/-- `body.str.contains(r"http[s]?://", na=False).astype(int)` (algo.py
line 51).  The regex `http[s]?://` matches exactly the literal substrings
`http://` and `https://`; pandas `str.contains` defaults to `case=True`,
so the match is case-sensitive. -/
def hasUrl (s : String) : Nat :=
  if containsSub "http://".data s.data || containsSub "https://".data s.data
  then 1 else 0

/-- The case-insensitive variant described by the spec sentence
`has_url: 1 if body contains a substring matching http:// or https://
(case-insensitive), else 0`.  Modelled from the wording of the spec, for
comparison with `hasUrl` above (which is modelled from the code). -/
def hasUrlSpecInsensitive (s : String) : Nat :=
  if containsSub "http://".data (s.data.map Char.toLower)
      || containsSub "https://".data (s.data.map Char.toLower)
  then 1 else 0

/-- The per-comment row of `add_numeric_features`, in the fixed column
order of `NUM_FEATURES`.  `fillna("")` is the identity on actual strings.
The uppercase fraction is
`sum(c.isupper() for c in x) / max(len(x), 1)` (algo.py line 54). -/
structure NumericFeatures where
  body_length : Nat
  word_count : Nat
  has_url : Nat
  exclamations : Nat
  questions : Nat
  upperFraction : ℚ
deriving DecidableEq, Repr

def addNumericFeatures (body : String) : NumericFeatures :=
  { body_length := body.length
    word_count := pyWordCount body
    has_url := hasUrl body
    exclamations := body.data.count '!'
    questions := body.data.count '?'
    upperFraction :=
      ((body.data.filter Char.isUpper).length : ℚ) / ((max body.length 1 : ℕ) : ℚ) }

/-! ## Per-comment scoring (algo.py lines 84–107) -/

/-- The inner rule loop for one comment (algo.py lines 85–96): starting
from `max_prob = 0`, `violated_rule = None`, iterate the registry in
`models.items()` order and replace the running maximum only on a strictly
greater probability (`if prob > max_prob`).  `prob r` is the opaque
`model.predict_proba(X_final)[:,1][0]` for rule `r` on this comment. -/
def scoreStep (prob : String → ℚ) (acc : ℚ × Option String) (r : String) :
    ℚ × Option String :=
  if prob r > acc.1 then (prob r, some r) else acc

def scoreComment (rules : List String) (prob : String → ℚ) : ℚ × Option String :=
  rules.foldl (scoreStep prob) (0, none)

/-- The result entry appended for one comment (algo.py lines 98–107):
threshold `0.5` inclusive for `"Violates rule"`, and
`"rule": violated_rule if status != "Safe" else ""`.  Note that when the
status is not `"Safe"` the code emits the raw `violated_rule`, which would
serialize as JSON `null` were it still `None`. -/
def resultEntry (rules : List String) (prob : String → ℚ) : Json :=
  let m := (scoreComment rules prob).1
  let vr := (scoreComment rules prob).2
  let status := if m ≥ 1/2 then "Violates rule" else "Safe"
  Json.obj [("probability", Json.num m),
            ("status", Json.str status),
            ("rule",
              if status ≠ "Safe" then
                match vr with
                | some r => Json.str r
                | none => Json.null
              else Json.str "")]

/-! ## The request loop (`main`, algo.py lines 60–118) -/

/-- The binding of the local variable `comments` inside `main`.  It is
assigned only at line 70 and persists across loop iterations; it is `none`
until the first assignment. -/
structure LoopState where
  commentsVar : Option Json

def initState : LoopState := ⟨none⟩

/-- Outcome of handling one input line: either the process dies on an
uncaught exception, or it emits at most one response line (`none` for a
blank input line) and continues with an updated state. -/
inductive StepOutcome where
  | crash (msg : String)
  | ok (emitted : Option Json) (st : LoopState)

/-- One `"Error"` entry of the failure response (algo.py line 117). -/
def errorEntry (msg : String) : Json :=
  Json.obj [("probability", Json.num 0), ("status", Json.str "Error"),
            ("rule", Json.str ""), ("error", Json.str msg)]

/-- The except block (algo.py lines 115–118).  The dict literal first
evaluates the guarded conditional at line 116, which tests whether the
variable `comments` is bound in locals before reading it, but the
comprehension `for _ in comments` at line 117 then reads `comments`
unconditionally: if the variable is unbound this raises
`UnboundLocalError` inside the handler and the process dies; if it is
bound to a non-iterable value, the iteration raises `TypeError` with the
same effect.  Otherwise one `"Error"` entry is emitted per item of the
bound value. -/
def exceptBlock (msg : String) (st : LoopState) : StepOutcome :=
  match st.commentsVar with
  | none => .crash "UnboundLocalError"
  | some v =>
      match pyIterLen v with
      | none => .crash "TypeError"
      | some n =>
          .ok (some (Json.obj
                [("comments", v),
                 ("results", Json.arr (List.replicate n (errorEntry msg)))]))
            st

/-- Helper for `asStringList`: all elements must be strings. -/
def asStringsAux : List Json → Option (List String)
  | [] => some []
  | .str s :: rest => (asStringsAux rest).map (fun t => s :: t)
  | _ :: _ => none

/-- The pandas/TF-IDF pipeline (algo.py lines 76–80) consumes the decoded
`comments` value as a list of strings; on any other (truthy) value the
library calls raise, modelled as `none` here. -/
def asStringList : Json → Option (List String)
  | .arr l => asStringsAux l
  | _ => none

/-- The try block for one decoded request `j` (algo.py lines 69–113),
parameterized by the loaded registry `rules` (the key order of
`models.items()`) and the probability oracle `prob body rule`.  Returns
the `comments` binding as left by this attempt, and either the response to
print or the message of the raised exception. -/
def tryBlock (rules : List String) (prob : String → String → ℚ)
    (j : Json) (st : LoopState) : LoopState × Except String Json :=
  match dictGet j "comments" (Json.arr []) with
  | .error msg => (st, .error msg)
  | .ok comments =>
      let st2 : LoopState := ⟨some comments⟩
      if pyTruthy comments then
        match asStringList comments with
        | none => (st2, .error "pandas exception")
        | some bodies =>
            (st2, .ok (Json.obj
              [("comments", comments),
               ("results", Json.arr
                  (bodies.map (fun b => resultEntry rules (prob b))))]))
      else
        (st2, .ok (Json.obj
          [("comments", Json.arr []), ("predictions", Json.arr [])]))

/-- One iteration of `for line in sys.stdin` (algo.py lines 63–118):
blank lines are skipped without output or state change; otherwise the try
block runs and any exception it raises is routed to the except block. -/
def processLine (rules : List String) (prob : String → String → ℚ)
    (st : LoopState) : LineV → StepOutcome
  | .blank => .ok none st
  | .invalid msg => exceptBlock msg st
  | .valid j =>
      match tryBlock rules prob j st with
      | (st2, .ok resp) => .ok (some resp) st2
      | (st2, .error msg) => exceptBlock msg st2

/-- The whole loop over a finite stdin stream: the responses printed, in
order, and `some msg` if an uncaught exception killed the process before
the stream was exhausted. -/
def runLoop (rules : List String) (prob : String → String → ℚ) :
    LoopState → List LineV → List Json × Option String
  | _, [] => ([], none)
  | st, l :: rest =>
      match processLine rules prob st l with
      | .crash msg => ([], some msg)
      | .ok none st2 => runLoop rules prob st2 rest
      | .ok (some r) st2 =>
          let p := runLoop rules prob st2 rest
          (r :: p.1, p.2)

/-- Field lookup on a JSON object. -/
def objField (j : Json) (k : String) : Option Json :=
  match j with
  | .obj l => fieldLookup k l
  | _ => none

/-! ## Lemmas about the running-maximum fold -/

theorem scoreStep_fst_le (prob : String → ℚ) (a : ℚ × Option String) (r : String) :
    a.1 ≤ (scoreStep prob a r).1 := by
  unfold scoreStep
  split_ifs with h
  · exact le_of_lt h
  · exact le_refl _

theorem foldl_scoreStep_fst_le (prob : String → ℚ) (l : List String) :
    ∀ a : ℚ × Option String, a.1 ≤ (l.foldl (scoreStep prob) a).1 := by
  induction l with
  | nil => intro a; exact le_refl _
  | cons r t ih =>
      intro a
      rw [List.foldl_cons]
      exact le_trans (scoreStep_fst_le prob a r) (ih _)

theorem foldl_scoreStep_fst_mem (prob : String → ℚ) (l : List String) :
    ∀ (a : ℚ × Option String), ∀ r ∈ l, prob r ≤ (l.foldl (scoreStep prob) a).1 := by
  induction l with
  | nil => intro a r hr; cases hr
  | cons r0 t ih =>
      intro a r hr
      rw [List.foldl_cons]
      rcases List.mem_cons.mp hr with h | h
      · subst h
        refine le_trans ?_ (foldl_scoreStep_fst_le prob t _)
        unfold scoreStep
        split_ifs with hgt
        · exact le_refl _
        · exact le_of_not_lt hgt
      · exact ih _ r h

theorem foldl_scoreStep_snd_of_fst_eq (prob : String → ℚ) (l : List String) :
    ∀ a : ℚ × Option String, (l.foldl (scoreStep prob) a).1 = a.1 →
      (l.foldl (scoreStep prob) a).2 = a.2 := by
  induction l with
  | nil => intro a _; rfl
  | cons r0 t ih =>
      intro a h
      rw [List.foldl_cons] at h ⊢
      by_cases hgt : prob r0 > a.1
      · exfalso
        have h1 : (scoreStep prob a r0).1 ≤
            (t.foldl (scoreStep prob) (scoreStep prob a r0)).1 :=
          foldl_scoreStep_fst_le prob t _
        have h2 : (scoreStep prob a r0).1 = prob r0 := by
          unfold scoreStep; rw [if_pos hgt]
        rw [h2, h] at h1
        exact absurd hgt (not_lt.mpr h1)
      · have hstep : scoreStep prob a r0 = a := by
          unfold scoreStep; rw [if_neg hgt]
        rw [hstep] at h ⊢
        exact ih a h

theorem foldl_scoreStep_cases (prob : String → ℚ) (l : List String) :
    ∀ a : ℚ × Option String,
      l.foldl (scoreStep prob) a = a ∨
      ∃ r ∈ l, (l.foldl (scoreStep prob) a).2 = some r ∧
               (l.foldl (scoreStep prob) a).1 = prob r := by
  induction l with
  | nil => intro a; exact Or.inl rfl
  | cons r0 t ih =>
      intro a
      rw [List.foldl_cons]
      by_cases hgt : prob r0 > a.1
      · have hstep : scoreStep prob a r0 = (prob r0, some r0) := by
          unfold scoreStep; rw [if_pos hgt]
        rw [hstep]
        rcases ih (prob r0, some r0) with h | ⟨r, hr, h1, h2⟩
        · right
          exact ⟨r0, List.mem_cons_self r0 t, by rw [h], by rw [h]⟩
        · right
          exact ⟨r, List.mem_cons_of_mem r0 hr, h1, h2⟩
      · have hstep : scoreStep prob a r0 = a := by
          unfold scoreStep; rw [if_neg hgt]
        rw [hstep]
        rcases ih a with h | ⟨r, hr, h1, h2⟩
        · exact Or.inl h
        · exact Or.inr ⟨r, List.mem_cons_of_mem r0 hr, h1, h2⟩

theorem scoreComment_snd_of_pos (prob : String → ℚ) (rules : List String)
    (h : 0 < (scoreComment rules prob).1) :
    ∃ r ∈ rules, (scoreComment rules prob).2 = some r ∧
      (scoreComment rules prob).1 = prob r := by
  rcases foldl_scoreStep_cases prob rules (0, none) with h0 | h0
  · exfalso
    have : (scoreComment rules prob).1 = 0 := by
      unfold scoreComment; rw [h0]
    rw [this] at h
    exact absurd h (lt_irrefl 0)
  · exact h0

theorem foldl_scoreStep_find (prob : String → ℚ) (l : List String) :
    ∀ a : ℚ × Option String, a.1 < (l.foldl (scoreStep prob) a).1 →
      (l.foldl (scoreStep prob) a).2 =
        l.find? (fun r => decide ((l.foldl (scoreStep prob) a).1 ≤ prob r)) := by
  induction l with
  | nil => intro a h; exact absurd h (lt_irrefl _)
  | cons r0 t ih =>
      intro a h
      rw [List.foldl_cons] at h ⊢
      by_cases hgt : prob r0 > a.1
      · have hstep : scoreStep prob a r0 = (prob r0, some r0) := by
          unfold scoreStep; rw [if_pos hgt]
        rw [hstep] at h ⊢
        by_cases heq : (t.foldl (scoreStep prob) (prob r0, some r0)).1 = prob r0
        · have hsnd := foldl_scoreStep_snd_of_fst_eq prob t (prob r0, some r0) heq
          rw [hsnd]
          rw [List.find?_cons_of_pos _ (by simpa using le_of_eq heq)]
        · have hlt : prob r0 < (t.foldl (scoreStep prob) (prob r0, some r0)).1 :=
            lt_of_le_of_ne
              (by simpa using foldl_scoreStep_fst_le prob t (prob r0, some r0))
              (fun hc => heq hc.symm)
          rw [List.find?_cons_of_neg _ (by simpa using not_le_of_lt hlt)]
          exact ih (prob r0, some r0) hlt
      · have hstep : scoreStep prob a r0 = a := by
          unfold scoreStep; rw [if_neg hgt]
        rw [hstep] at h ⊢
        have hlt : prob r0 < (t.foldl (scoreStep prob) a).1 :=
          lt_of_le_of_lt (le_of_not_lt hgt) h
        rw [List.find?_cons_of_neg _ (by simpa using not_le_of_lt hlt)]
        exact ih a h

theorem asStringList_map_str (l : List String) :
    asStringList (Json.arr (l.map Json.str)) = some l := by
  induction l with
  | nil => rfl
  | cons b t ih =>
      simp only [asStringList] at ih ⊢
      rw [List.map_cons]
      simp only [asStringsAux, ih]
      rfl

theorem resultEntry_nil (prob : String → ℚ) :
    resultEntry [] prob =
      Json.obj [("probability", Json.num 0), ("status", Json.str "Safe"),
                ("rule", Json.str "")] := by
  simp only [resultEntry, scoreComment, List.foldl_nil]
  norm_num

theorem containsSub_iff_infix (pat : List Char) (s : List Char) :
    containsSub pat s = true ↔ pat <:+: s := by
  induction s with
  | nil =>
      simp only [containsSub, List.isEmpty_iff]
      exact ⟨fun h => h ▸ List.infix_rfl, fun h => List.eq_nil_of_infix_nil h⟩
  | cons c rest ih =>
      simp only [containsSub, Bool.or_eq_true, List.isPrefixOf_iff_prefix, ih,
        List.infix_cons_iff]

/-! ## Claim theorems -/

/-- C9 (confirmed): numeric feature extraction is total over every string;
the uppercase-ratio denominator `max(len(x), 1)` is at least 1, and the
computed `uppercase_ratio` lies in `[0, 1]`. -/
theorem C9_numeric_features_total (s : String) :
    (1 : ℚ) ≤ ((max s.length 1 : ℕ) : ℚ) ∧
    0 ≤ (addNumericFeatures s).upperFraction ∧
    (addNumericFeatures s).upperFraction ≤ 1 := by
  have hden : (1 : ℚ) ≤ ((max s.length 1 : ℕ) : ℚ) := by
    exact_mod_cast le_max_right s.length 1
  have hdenpos : (0 : ℚ) < ((max s.length 1 : ℕ) : ℚ) :=
    lt_of_lt_of_le one_pos hden
  have hrew : (addNumericFeatures s).upperFraction =
      ((s.data.filter Char.isUpper).length : ℚ) / ((max s.length 1 : ℕ) : ℚ) :=
    rfl
  refine ⟨hden, ?_, ?_⟩
  · rw [hrew]
    exact div_nonneg (Nat.cast_nonneg _) (Nat.cast_nonneg _)
  · rw [hrew, div_le_one hdenpos]
    have hlen : (s.data.filter Char.isUpper).length ≤ max s.length 1 :=
      le_trans (List.length_filter_le _ _) (le_max_left _ _)
    exact_mod_cast hlen

/-- C2 (corrected): the claim asserts a case-insensitive match, but pandas
`str.contains` defaults to `case=True`, so `has_url` is 1 exactly when the
body contains `http://` or `https://` case-sensitively. -/
theorem C2_has_url_case_sensitive (s : String) :
    ((addNumericFeatures s).has_url = 1 ↔
      ("http://".data <:+: s.data ∨ "https://".data <:+: s.data)) ∧
    ((addNumericFeatures s).has_url = 0 ↔
      ¬ ("http://".data <:+: s.data ∨ "https://".data <:+: s.data)) := by
  have key : (containsSub "http://".data s.data
        || containsSub "https://".data s.data) = true ↔
      ("http://".data <:+: s.data ∨ "https://".data <:+: s.data) := by
    rw [Bool.or_eq_true, containsSub_iff_infix, containsSub_iff_infix]
  rw [show (addNumericFeatures s).has_url = hasUrl s from rfl]
  unfold hasUrl
  split_ifs with h
  · simp [key.mp h]
  · have hn : ¬ ("http://".data <:+: s.data ∨ "https://".data <:+: s.data) :=
      fun hp => h (key.mpr hp)
    simp [hn]

/-- C2 counterexample: the body `Visit HTTP://spam.biz now` contains
`http://` case-insensitively, so the claim requires `has_url = 1`, but the
code computes 0. -/
theorem C2_counterexample_uppercase_url :
    (addNumericFeatures "Visit HTTP://spam.biz now").has_url = 0 ∧
    hasUrlSpecInsensitive "Visit HTTP://spam.biz now" = 1 := by
  exact ⟨by decide, by decide⟩

/-- C4 (confirmed): the verdict threshold 0.5 is an inclusive lower bound:
`max_prob ≥ 0.5` gives status `"Violates rule"` with the recorded best
rule; otherwise status `"Safe"` with rule `""` (the empty string, not
null). -/
theorem C4_threshold_inclusive (rules : List String) (prob : String → ℚ) :
    resultEntry rules prob =
      if (scoreComment rules prob).1 ≥ 1/2 then
        Json.obj [("probability", Json.num (scoreComment rules prob).1),
                  ("status", Json.str "Violates rule"),
                  ("rule", Json.str (((scoreComment rules prob).2).getD ""))]
      else
        Json.obj [("probability", Json.num (scoreComment rules prob).1),
                  ("status", Json.str "Safe"),
                  ("rule", Json.str "")] := by
  by_cases h : (scoreComment rules prob).1 ≥ 1/2
  · have hpos : 0 < (scoreComment rules prob).1 :=
      lt_of_lt_of_le (by norm_num) h
    obtain ⟨r, _, hsnd, _⟩ := scoreComment_snd_of_pos prob rules hpos
    rw [if_pos h]
    simp only [resultEntry]
    rw [if_pos h, hsnd]
    simp
  · rw [if_neg h]
    simp only [resultEntry]
    rw [if_neg h]
    simp

/-- C5 (confirmed): the selected rule is the first one, in registry
iteration order, attaining the maximal probability (the running maximum is
replaced only on strictly greater values), and the probability of every
rule is bounded by the recorded maximum. -/
theorem C5_tie_first_in_iteration_order (rules : List String)
    (prob : String → ℚ) (h : 0 < (scoreComment rules prob).1) :
    (scoreComment rules prob).2 =
      rules.find? (fun r => decide ((scoreComment rules prob).1 ≤ prob r)) ∧
    ∀ r ∈ rules, prob r ≤ (scoreComment rules prob).1 := by
  constructor
  · exact foldl_scoreStep_find prob rules (0, none) h
  · intro r hr
    exact foldl_scoreStep_fst_mem prob rules (0, none) r hr

/-- Witness for C5: with rules `["rule_b", "rule_a"]` and both
probabilities equal to 1, the selected rule is `rule_b` — the first in
iteration order, not the lexicographically smallest. -/
theorem C5_tie_first_witness :
    (scoreComment ["rule_b", "rule_a"] (fun _ => 1)).2 = some "rule_b" := by
  have h := C5_tie_first_in_iteration_order ["rule_b", "rule_a"]
    (fun _ => 1) (by norm_num [scoreComment, scoreStep])
  rw [h.1]
  decide

/-- C10 (confirmed): whenever the emitted entry has status
`"Violates rule"`, its rule field is a string naming a rule in the
registry (never null): the running maximum starts at 0 and the threshold
is 0.5, so some rule strictly exceeded the initial maximum. -/
theorem C10_violates_has_registry_rule (rules : List String)
    (prob : String → ℚ)
    (h : objField (resultEntry rules prob) "status" =
      some (Json.str "Violates rule")) :
    ∃ r ∈ rules, objField (resultEntry rules prob) "rule" =
      some (Json.str r) := by
  by_cases hm : (scoreComment rules prob).1 ≥ 1/2
  · have hpos : 0 < (scoreComment rules prob).1 :=
      lt_of_lt_of_le (by norm_num) hm
    obtain ⟨r, hr, hsnd, _⟩ := scoreComment_snd_of_pos prob rules hpos
    refine ⟨r, hr, ?_⟩
    simp only [resultEntry, objField]
    rw [if_pos hm, hsnd]
    simp [fieldLookup]
  · exfalso
    simp only [resultEntry, objField] at h
    rw [if_neg hm] at h
    simp [fieldLookup] at h

/-- Witness for C10: a single rule `spam` with probability `3/4` yields a
`"Violates rule"` entry whose rule field is `spam`, a registry member. -/
theorem C10_violates_witness :
    ∃ r ∈ ["spam"], objField (resultEntry ["spam"] (fun _ => 3/4)) "rule" =
      some (Json.str r) :=
  C10_violates_has_registry_rule ["spam"] (fun _ => 3/4) (by
    norm_num [objField, resultEntry, scoreComment, scoreStep, fieldLookup]
    exact fun hcontra => absurd hcontra (by decide))

/-- C7 (confirmed): a request whose decoded comments list is empty is
answered with exactly `{"comments": [], "predictions": []}`, using the
`predictions` field name (unlike the `results` field of the non-empty
path).  The response is the same for every registry and model oracle:
no feature extraction or scoring is performed. -/
theorem C7_empty_batch_predictions (rules : List String)
    (prob : String → String → ℚ) (st : LoopState)
    (fields : List (String × Json))
    (_hnodup : (fields.map Prod.fst).Nodup)
    (h : fieldLookup "comments" fields = some (Json.arr [])) :
    processLine rules prob st (LineV.valid (Json.obj fields)) =
      StepOutcome.ok (some (Json.obj
        [("comments", Json.arr []), ("predictions", Json.arr [])]))
        ⟨some (Json.arr [])⟩ := by
  simp only [processLine, tryBlock, dictGet, h]
  rfl

/-- Witness for C7: the request `{"comments": []}`. -/
theorem C7_empty_batch_witness :
    processLine ["spam"] (fun _ _ => 1) initState
        (LineV.valid (Json.obj [("comments", Json.arr [])])) =
      StepOutcome.ok (some (Json.obj
        [("comments", Json.arr []), ("predictions", Json.arr [])]))
        ⟨some (Json.arr [])⟩ :=
  C7_empty_batch_predictions ["spam"] (fun _ _ => 1) initState
    [("comments", Json.arr [])] (by decide) (by simp [fieldLookup])

/-- C8 (confirmed): with an empty rule registry, every comment of a
well-formed non-empty batch is reported with probability 0.0, status
`"Safe"` and rule `""`. -/
theorem C8_empty_registry_all_safe (prob : String → String → ℚ)
    (st : LoopState) (bodies : List String) (h : bodies ≠ []) :
    processLine [] prob st
        (LineV.valid (Json.obj
          [("comments", Json.arr (bodies.map Json.str))])) =
      StepOutcome.ok (some (Json.obj
        [("comments", Json.arr (bodies.map Json.str)),
         ("results", Json.arr (bodies.map (fun _ =>
            Json.obj [("probability", Json.num 0),
                      ("status", Json.str "Safe"),
                      ("rule", Json.str "")])))]))
        ⟨some (Json.arr (bodies.map Json.str))⟩ := by
  have htruthy : pyTruthy (Json.arr (bodies.map Json.str)) = true := by
    cases bodies with
    | nil => exact absurd rfl h
    | cons b t => rfl
  have hlookup : fieldLookup "comments"
      [("comments", Json.arr (bodies.map Json.str))] =
      some (Json.arr (bodies.map Json.str)) := by
    simp [fieldLookup]
  have hmap : (fun b => resultEntry [] (prob b)) = (fun _ : String =>
      Json.obj [("probability", Json.num 0), ("status", Json.str "Safe"),
                ("rule", Json.str "")]) :=
    funext fun b => resultEntry_nil (prob b)
  simp only [processLine, tryBlock, dictGet, hlookup, htruthy,
    asStringList_map_str, hmap, if_true]

/-- Witness for C8: the one-comment batch `{"comments": ["hello"]}`. -/
theorem C8_empty_registry_witness :
    processLine [] (fun _ _ => 1) initState
        (LineV.valid (Json.obj [("comments", Json.arr [Json.str "hello"])])) =
      StepOutcome.ok (some (Json.obj
        [("comments", Json.arr [Json.str "hello"]),
         ("results", Json.arr [Json.obj
            [("probability", Json.num 0), ("status", Json.str "Safe"),
             ("rule", Json.str "")]])]))
        ⟨some (Json.arr [Json.str "hello"])⟩ := by
  have h := C8_empty_registry_all_safe (fun _ _ => 1) initState ["hello"]
    (by decide)
  simpa using h

/-- C3 counterexample: the decoded object `{"items": ["hello"]}` lacks the
comments field, yet the emitted response is the success empty-batch
response (it has a `predictions` field and no `results`/`"Error"` entry),
not an Error-verdict response. -/
theorem C3_counterexample_missing_field :
    processLine ["spam"] (fun _ _ => 1) initState
        (LineV.valid (Json.obj [("items", Json.arr [Json.str "hello"])])) =
      StepOutcome.ok (some (Json.obj
        [("comments", Json.arr []), ("predictions", Json.arr [])]))
        ⟨some (Json.arr [])⟩ ∧
    objField (Json.obj [("comments", Json.arr []), ("predictions", Json.arr [])])
        "results" = none := by
  constructor
  · simp [processLine, tryBlock, dictGet, fieldLookup, pyTruthy]
  · simp [objField, fieldLookup]

/-- C3 (amended): a decoded JSON object lacking the comments field is not
surfaced as an error: `data.get("comments", [])` defaults to the empty
list, so the request receives the success empty-batch response
`{"comments": [], "predictions": []}`, not an Error-verdict response. -/
theorem C3_missing_field_is_empty_success (rules : List String)
    (prob : String → String → ℚ) (st : LoopState)
    (fields : List (String × Json))
    (_hnodup : (fields.map Prod.fst).Nodup)
    (h : fieldLookup "comments" fields = none) :
    processLine rules prob st (LineV.valid (Json.obj fields)) =
      StepOutcome.ok (some (Json.obj
        [("comments", Json.arr []), ("predictions", Json.arr [])]))
        ⟨some (Json.arr [])⟩ := by
  simp only [processLine, tryBlock, dictGet, h]
  rfl

/-- Witness for the amended C3: the request `{"items": 1}`. -/
theorem C3_missing_field_witness :
    processLine ["spam"] (fun _ _ => 1) initState
        (LineV.valid (Json.obj [("items", Json.num 1)])) =
      StepOutcome.ok (some (Json.obj
        [("comments", Json.arr []), ("predictions", Json.arr [])]))
        ⟨some (Json.arr [])⟩ :=
  C3_missing_field_is_empty_success ["spam"] (fun _ _ => 1) initState
    [("items", Json.num 1)] (by decide) (by simp [fieldLookup])

/-- C1 (code bug): a non-JSON line is not answered with an empty-comments
Error response.  If no request has yet bound `comments`, the except
handler itself raises `UnboundLocalError` (the comprehension at algo.py
line 117 reads `comments` unconditionally) and the process dies without
emitting anything; if an earlier request did bind `comments`, the Error
response reuses that stale batch instead of the empty list. -/
theorem C1_not_json_no_empty_error_response :
    runLoop ["spam"] (fun _ _ => 1) initState
        [LineV.invalid "Expecting value"] =
      ([], some "UnboundLocalError") ∧
    runLoop ["spam"] (fun _ _ => 1) initState
        [LineV.valid (Json.obj [("comments", Json.arr [Json.str "hi"])]),
         LineV.invalid "Expecting value"] =
      ([Json.obj [("comments", Json.arr [Json.str "hi"]),
                  ("results", Json.arr [Json.obj
                    [("probability", Json.num 1),
                     ("status", Json.str "Violates rule"),
                     ("rule", Json.str "spam")]])],
        Json.obj [("comments", Json.arr [Json.str "hi"]),
                  ("results", Json.arr [errorEntry "Expecting value"])]],
       none) := by
  constructor
  · rfl
  · norm_num [runLoop, processLine, tryBlock, dictGet, fieldLookup, pyTruthy,
      asStringList, asStringsAux, exceptBlock, pyIterLen, resultEntry,
      scoreComment, scoreStep, errorEntry]
    exact fun hcontra => absurd hcontra (by decide)

/-- C6 (code bug): blank lines are indeed skipped with no response and no
state change, but the loop does not survive every malformed request: the
very first non-blank, non-JSON line kills the process (uncaught
`UnboundLocalError` in the except handler) and receives no response. -/
theorem C6_loop_killed_by_malformed_line :
    processLine ["spam"] (fun _ _ => 1) initState LineV.blank =
      StepOutcome.ok none initState ∧
    runLoop ["spam"] (fun _ _ => 1) initState
        [LineV.blank, LineV.invalid "oops"] =
      ([], some "UnboundLocalError") := by
  constructor
  · rfl
  · rfl

end KaggleApp
